import Mathlib

/-!
Shallow embedding of `pubmed_fetch.py` (PubMed paper fetcher / affiliation
classifier) and proofs about its observable behaviour.

Modelling conventions:
  - An XML element is `Element`: tag, optional text, children.  Attributes
    and tail text are not used by the program's field extraction and are
    not modelled; serialization (`ET.tostring`) is modelled on the same
    shape, including entity escaping of the text and the short form
    `<tag />` for empty elements.
  - `find("Tag")` is the first direct child with that tag;
    `find(".//Tag")` / `findall(".//Tag")` are first / all descendants in
    document order.
  - Python exceptions (TypeError on `kw in None`, AttributeError on
    `None.text`, HTTPError from `raise_for_status`) are `Except.error`.
  - `requests.Response.raise_for_status` raises exactly for status codes
    in [400, 600); this is modelled by `raisesForStatus`.
  - The two HTTP responses are an ambient `Env`; the pipeline also
    returns the list of requests it actually issued, so that
    short-circuiting can be observed.
  - `re.search` with the e-mail pattern (one or more local-part
    characters, an at sign, one or more domain characters, a dot, two or
    more letters) is implemented by `searchEmail`: leftmost match, greedy
    with backtracking inside the domain part, exactly as the backtracking
    engine behaves on this pattern.
-/

/-- Keyword list from line 11 of the source: affiliations containing any of
these (case-sensitively) are classified as company affiliations. -/
def COMPANY_KEYWORDS : List String :=
  ["Inc.", "Ltd.", "Pharma", "Biotech", "Corp.", "Therapeutics", "Laboratories"]

/-- Keyword list from line 12 of the source; defined but never consulted. -/
def ACADEMIC_KEYWORDS : List String :=
  ["University", "Institute", "College", "Hospital", "School", "Academy"]

/-- Python substring test `needle in hay` on character lists. -/
def pyInChars (needle : List Char) : List Char → Bool
  | [] => needle.isEmpty
  | c :: t => needle.isPrefixOf (c :: t) || pyInChars needle t

/-- Python substring test `needle in hay` on strings. -/
def pyIn (needle hay : String) : Bool :=
  pyInChars needle.data hay.data

/-- The classification test on line 75 of the source:
`any(keyword in affiliation for keyword in COMPANY_KEYWORDS)`. -/
def isCompanyAffiliation (affiliation : String) : Bool :=
  COMPANY_KEYWORDS.any (fun keyword => pyIn keyword affiliation)

/-- XML element: tag name, optional text content, child elements. -/
inductive Element : Type where
  | mk : String → Option String → List Element → Element

def Element.tag : Element → String
  | .mk t _ _ => t

def Element.text : Element → Option String
  | .mk _ tx _ => tx

def Element.children : Element → List Element
  | .mk _ _ cs => cs

mutual

/-- All elements of the subtree rooted at the argument (the element itself
included) whose tag is `tag`, in document order. -/
def descOrSelf (tag : String) : Element → List Element
  | .mk t tx cs =>
    (if t = tag then [Element.mk t tx cs] else []) ++ descOrSelfList tag cs

def descOrSelfList (tag : String) : List Element → List Element
  | [] => []
  | e :: es => descOrSelf tag e ++ descOrSelfList tag es

end

/-- Model of `elem.findall(".//tag")`: all proper descendants with the
tag, in document order. -/
def Element.findallDescendants (e : Element) (tag : String) : List Element :=
  descOrSelfList tag e.children

/-- Model of `elem.find(".//tag")`: first proper descendant with the tag,
or `none`. -/
def Element.findDescendant (e : Element) (tag : String) : Option Element :=
  (descOrSelfList tag e.children).head?

/-- Model of `elem.find("tag")`: first direct child with the tag, or
`none`. -/
def Element.findChild (e : Element) (tag : String) : Option Element :=
  e.children.find? (fun c => c.tag == tag)

/-- Entity escaping applied by `ET.tostring` to text content. -/
def escapeChar (c : Char) : String :=
  if c = '&' then "&amp;"
  else if c = '<' then "&lt;"
  else if c = '>' then "&gt;"
  else String.singleton c

def escapeText (s : String) : String :=
  String.join (s.data.map escapeChar)

mutual

/-- Model of `ET.tostring(elem, encoding="unicode")`: an element with no
text and no children serializes as `<tag />`, otherwise as
`<tag>escaped-text children</tag>`. -/
def serializeElem : Element → String
  | .mk t tx cs =>
    if (tx.getD "").isEmpty && cs.isEmpty then
      "<" ++ t ++ " />"
    else
      "<" ++ t ++ ">" ++ (match tx with | none => "" | some s => escapeText s) ++
        serializeList cs ++ "</" ++ t ++ ">"

def serializeList : List Element → String
  | [] => ""
  | e :: es => serializeElem e ++ serializeList es

end

/-- Python string interpolation of a value that is either a string or None:
f-strings render None as the four letters of the word None. -/
def pyStrOpt : Option String → String
  | none => "None"
  | some s => s

/-- Lines 68-70 of the source: display name is the interpolation of
ForeName text and LastName text when both child elements are present, and
the literal placeholder otherwise. -/
def authorDisplayName (author : Element) : String :=
  match author.findChild "LastName", author.findChild "ForeName" with
  | some last_name, some fore_name =>
      pyStrOpt fore_name.text ++ " " ++ pyStrOpt last_name.text
  | some _, none => "Unknown"
  | none, _ => "Unknown"

/-- The affiliation text reachable from an author node: text of the first
descendant Affiliation element, if any. -/
def authorAffiliationText (author : Element) : Option String :=
  (author.findDescendant "Affiliation").bind Element.text

/-- Character class `[a-zA-Z0-9._%+-]` of the e-mail pattern. -/
def isLocalChar (c : Char) : Bool :=
  c.isAlphanum || c == '.' || c == '_' || c == '%' || c == '+' || c == '-'

/-- Character class `[a-zA-Z0-9.-]` of the e-mail pattern. -/
def isDomainChar (c : Char) : Bool :=
  c.isAlphanum || c == '.' || c == '-'

/-- One backtracking attempt of the domain part: the plus-closure takes `j`
characters of the maximal domain-character run `d`, the literal dot must be
the next character, and at least two letters must follow (taken greedily). -/
def tryDomAt (d : List Char) (j : Nat) : Option (List Char) :=
  if d[j]? = some '.' then
    let tl := (d.drop (j + 1)).takeWhile Char.isAlpha
    if 2 ≤ tl.length then some (d.take j ++ '.' :: tl) else none
  else none

/-- Greedy backtracking over the domain part: try the longest split first. -/
def domSearch (d : List Char) : Nat → Option (List Char)
  | 0 => none
  | j + 1 =>
    match tryDomAt d (j + 1) with
    | some r => some r
    | none => domSearch d j

/-- One anchored match attempt of the e-mail pattern at the head of `cs`. -/
def matchAt (cs : List Char) : Option (List Char) :=
  let l := cs.takeWhile isLocalChar
  if l.isEmpty then none
  else
    match cs.dropWhile isLocalChar with
    | [] => none
    | c :: rest =>
      if c = '@' then
        let d := rest.takeWhile isDomainChar
        (domSearch d d.length).map (fun dm => l ++ '@' :: dm)
      else none

/-- Model of `re.search`: try a match attempt at each start position from
the left, return the first success. -/
def searchEmail : List Char → Option (List Char)
  | [] => none
  | c :: cs =>
    match matchAt (c :: cs) with
    | some m => some m
    | none => searchEmail cs

/-- First e-mail pattern match in a string, as on line 80 of the source. -/
def firstEmail (s : String) : Option String :=
  (searchEmail s.data).map (fun m => String.mk m)

/-- Loop body of lines 67-77 of the source, for one author node.  The
accumulator holds the authors list and the company affiliations list.
An Affiliation element that is present but carries no text makes the
Python expression `keyword in affiliation` evaluate `in` on None, which
raises a TypeError. -/
def processAuthor (acc : List String × List String) (author : Element) :
    Except String (List String × List String) :=
  let name := authorDisplayName author
  match author.findDescendant "Affiliation" with
  | none => Except.ok acc
  | some affiliation_elem =>
    match affiliation_elem.text with
    | none => Except.error "TypeError: argument of type NoneType is not iterable"
    | some affiliation =>
      if isCompanyAffiliation affiliation then
        Except.ok (acc.1 ++ [name], acc.2 ++ [affiliation])
      else
        Except.ok acc

/-- The author loop of `extract_authors_and_affiliations`. -/
def processAuthors (acc : List String × List String) :
    List Element → Except String (List String × List String)
  | [] => Except.ok acc
  | a :: as =>
    match processAuthor acc a with
    | Except.error e => Except.error e
    | Except.ok acc2 => processAuthors acc2 as

/-- Lines 59-84 of the source: author loop over `article.findall(".//Author")`,
then the e-mail regex search over the serialized article. -/
def extract_authors_and_affiliations (article : Element) :
    Except String (List String × List String × Option String) :=
  match processAuthors ([], []) (article.findallDescendants "Author") with
  | Except.error e => Except.error e
  | Except.ok (authors, company_affiliations) =>
    Except.ok (authors, company_affiliations, firstEmail (serializeElem article))

/-- One output record, with the list fields already joined as in
lines 49-55 of the source. -/
structure Paper where
  pubmedID : Option String
  title : Option String
  nonAcademicAuthors : String
  companyAffiliations : String
  correspondingEmail : String
deriving DecidableEq

/-- Python `x or default` for an optional string: None and the empty
string are falsy. -/
def pyOrElse (s : Option String) (d : String) : String :=
  match s with
  | none => d
  | some t => if t.isEmpty then d else t

/-- Lines 42-55 of the source, for one PubmedArticle element.  A missing
PMID descendant makes `article.find(".//PMID").text` dereference None,
an AttributeError. -/
def buildPaper (article : Element) : Except String Paper :=
  match article.findDescendant "PMID" with
  | none => Except.error "AttributeError: NoneType object has no attribute text"
  | some pmid_elem =>
    let title : Option String :=
      match article.findDescendant "ArticleTitle" with
      | none => some "N/A"
      | some title_elem => title_elem.text
    match extract_authors_and_affiliations article with
    | Except.error e => Except.error e
    | Except.ok (authors, company_affiliations, corresponding_email) =>
      Except.ok
        { pubmedID := pmid_elem.text
          title := title
          nonAcademicAuthors :=
            if authors.isEmpty then "N/A" else String.intercalate ", " authors
          companyAffiliations :=
            if company_affiliations.isEmpty then "N/A"
            else String.intercalate ", " company_affiliations
          correspondingEmail := pyOrElse corresponding_email "N/A" }

/-- The article loop of step 3: one Paper per PubmedArticle element, in
document order; the first exception aborts the whole batch. -/
def buildPapers : List Element → Except String (List Paper)
  | [] => Except.ok []
  | a :: as =>
    match buildPaper a with
    | Except.error e => Except.error e
    | Except.ok p =>
      match buildPapers as with
      | Except.error e => Except.error e
      | Except.ok ps => Except.ok (p :: ps)

/-- The two HTTP responses available to one run: status and decoded
identifier list of the search response (the `.get` chain defaults a
missing list to `[]`), status and parse result of the fetch response
(`none` models malformed XML, which raises a ParseError). -/
structure Env where
  searchStatus : Nat
  searchIdlist : List String
  fetchStatus : Nat
  fetchXml : Option Element

/-- The two requests the pipeline can issue. -/
inductive Req where
  | esearch
  | efetch
deriving DecidableEq

/-- Behaviour of `raise_for_status`: it raises exactly for 4xx and 5xx
status codes. -/
def raisesForStatus (status : Nat) : Bool :=
  (400 ≤ status && status < 600)

/-- Lines 14-57 of the source.  Returns the outcome together with the list
of HTTP requests actually issued, in order. -/
def fetch_papers_from_pubmed (env : Env) : Except String (List Paper) × List Req :=
  if raisesForStatus env.searchStatus then
    (Except.error "HTTPError", [Req.esearch])
  else
    let paper_ids := env.searchIdlist
    if paper_ids.isEmpty then
      (Except.ok [], [Req.esearch])
    else
      if raisesForStatus env.fetchStatus then
        (Except.error "HTTPError", [Req.esearch, Req.efetch])
      else
        match env.fetchXml with
        | none => (Except.error "ParseError", [Req.esearch, Req.efetch])
        | some root =>
          match buildPapers (root.findallDescendants "PubmedArticle") with
          | Except.error e => (Except.error e, [Req.esearch, Req.efetch])
          | Except.ok papers => (Except.ok papers, [Req.esearch, Req.efetch])

/-- The five CSV column names, in order, from line 91 of the source. -/
def csvFieldnames : List String :=
  ["PubmedID", "Title", "Non-academic Authors", "Company Affiliations",
   "Corresponding Author Email"]

/-- The csv module writes None as the empty string. -/
def renderCsvCell : Option String → String
  | none => ""
  | some s => s

/-- The CSV row of one record, in column order. -/
def paperRow (p : Paper) : List String :=
  [renderCsvCell p.pubmedID, renderCsvCell p.title, p.nonAcademicAuthors,
   p.companyAffiliations, p.correspondingEmail]

/-- Lines 86-94 of the source: header row, then one row per record.  The
CSV file is modelled as its list of rows. -/
def save_to_csv (data : List Paper) : List (List String) :=
  csvFieldnames :: data.map paperRow

/-- Parsed command line: required query, optional output filename. -/
structure Args where
  query : String
  file : Option String

/-- What the entry point does after fetching. -/
inductive OutputAction where
  | savedCsv : String → List (List String) → OutputAction
  | printedResults : List Paper → OutputAction
  | printedNoResults : OutputAction
deriving DecidableEq

/-- Lines 107-121 of the source: fetch, then route to CSV file, console
output, or the no-results message; an exception propagates. -/
def mainRun (env : Env) (args : Args) : Except String OutputAction :=
  match (fetch_papers_from_pubmed env).1 with
  | Except.error e => Except.error e
  | Except.ok papers =>
    if papers.isEmpty then
      Except.ok OutputAction.printedNoResults
    else
      match args.file with
      | some f => Except.ok (OutputAction.savedCsv f (save_to_csv papers))
      | none => Except.ok (OutputAction.printedResults papers)

/-- Whether a run created an output file. -/
def writesFile : Except String OutputAction → Bool
  | Except.ok (OutputAction.savedCsv _ _) => true
  | _ => false

/-! ### Specification-level definitions -/

/-- Shape of a string matched by the e-mail pattern: a nonempty run of
local-part characters, an at sign, a nonempty run of domain characters, a
dot, and at least two letters. -/
def emailShaped (m : List Char) : Prop :=
  ∃ l d1 d2, m = l ++ '@' :: (d1 ++ '.' :: d2) ∧
    l ≠ [] ∧ (∀ c ∈ l, isLocalChar c = true) ∧
    d1 ≠ [] ∧ (∀ c ∈ d1, isDomainChar c = true) ∧
    2 ≤ d2.length ∧ ∀ c ∈ d2, c.isAlpha = true

/-- The affiliation text of an author that passed the company filter
(defaulting to the empty string when there is none). -/
def affText (a : Element) : String :=
  (authorAffiliationText a).getD ""

/-! ### Concrete inputs used by the witnesses -/

/-- Author with both name parts and a company affiliation that contains an
e-mail address. -/
def exAuthorCo : Element :=
  Element.mk "Author" none
    [Element.mk "LastName" (some "Doe") [],
     Element.mk "ForeName" (some "John") [],
     Element.mk "AffiliationInfo" none
       [Element.mk "Affiliation" (some "Acme Pharma Inc. jdoe@acme.com") []]]

/-- Author with both name parts and an academic affiliation. -/
def exAuthorAcad : Element :=
  Element.mk "Author" none
    [Element.mk "LastName" (some "Lee") [],
     Element.mk "ForeName" (some "Ann") [],
     Element.mk "AffiliationInfo" none
       [Element.mk "Affiliation" (some "State University") []]]

/-- Author node whose LastName element is present but empty and whose
ForeName element carries text. -/
def exAuthorNoneText : Element :=
  Element.mk "Author" none
    [Element.mk "LastName" none [],
     Element.mk "ForeName" (some "Ann") []]

/-- Author node missing the ForeName element. -/
def exAuthorMissingFore : Element :=
  Element.mk "Author" none
    [Element.mk "LastName" (some "Doe") []]

/-- Author node with no Affiliation element at all. -/
def exAuthorNoAffil : Element :=
  Element.mk "Author" none
    [Element.mk "LastName" (some "Poe") [],
     Element.mk "ForeName" (some "Edgar") []]

/-- Author node whose Affiliation element carries the empty string. -/
def exAuthorEmptyStringAffil : Element :=
  Element.mk "Author" none
    [Element.mk "LastName" (some "Poe") [],
     Element.mk "ForeName" (some "Edgar") [],
     Element.mk "Affiliation" (some "") []]

/-- Author node whose Affiliation element is present but carries no text,
as produced by parsing an empty Affiliation tag. -/
def exAuthorNoTextAffil : Element :=
  Element.mk "Author" none
    [Element.mk "LastName" (some "Doe") [],
     Element.mk "ForeName" (some "Jane") [],
     Element.mk "Affiliation" none []]

/-- A full article with one company author and one academic author. -/
def exArticle : Element :=
  Element.mk "PubmedArticle" none
    [Element.mk "MedlineCitation" none
      [Element.mk "PMID" (some "111") [],
       Element.mk "Article" none
         [Element.mk "ArticleTitle" (some "Paper One") [],
          Element.mk "AuthorList" none [exAuthorCo, exAuthorAcad]]]]

/-- Article whose only author has an Affiliation element with no text. -/
def exArticleNoTextAffil : Element :=
  Element.mk "PubmedArticle" none
    [Element.mk "PMID" (some "123") [],
     Element.mk "AuthorList" none [exAuthorNoTextAffil]]

/-- Article with no PMID descendant. -/
def exArticleNoPmid : Element :=
  Element.mk "PubmedArticle" none
    [Element.mk "ArticleTitle" (some "Untitled Study") []]

/-- Root element wrapping the article with no PMID. -/
def exRootNoPmid : Element :=
  Element.mk "PubmedArticleSet" none [exArticleNoPmid]

/-- Environment whose search succeeds with an empty identifier list. -/
def envEmptyId : Env :=
  { searchStatus := 200, searchIdlist := [], fetchStatus := 200, fetchXml := none }

/-- Environment whose search request returns HTTP 500. -/
def envSearch500 : Env :=
  { searchStatus := 500, searchIdlist := ["111"], fetchStatus := 200,
    fetchXml := some exRootNoPmid }

/-- Environment whose fetch request returns HTTP 500. -/
def envFetch500 : Env :=
  { searchStatus := 200, searchIdlist := ["111"], fetchStatus := 500,
    fetchXml := some exRootNoPmid }

/-- Environment whose search request ends with a redirect status 300:
not a 2xx status, yet not one that raises. -/
def envRedirect : Env :=
  { searchStatus := 300, searchIdlist := ["111"], fetchStatus := 200,
    fetchXml := some (Element.mk "PubmedArticleSet" none []) }

/-- Environment delivering the article with no PMID. -/
def envNoPmid : Env :=
  { searchStatus := 200, searchIdlist := ["1"], fetchStatus := 200,
    fetchXml := some exRootNoPmid }

/-- Command line with no output file. -/
def argsConsole : Args :=
  { query := "cancer research", file := none }

/-- Command line selecting CSV output. -/
def argsFile : Args :=
  { query := "cancer research", file := some "results.csv" }

/-- The record the pipeline builds from the example article. -/
def examplePaper : Paper :=
  { pubmedID := some "111", title := some "Paper One",
    nonAcademicAuthors := "John Doe",
    companyAffiliations := "Acme Pharma Inc. jdoe@acme.com",
    correspondingEmail := "jdoe@acme.com" }


/-! ### Substring classification lemmas -/

theorem pyInChars_iff (needle hay : List Char) :
    pyInChars needle hay = true ↔ ∃ p q, hay = p ++ needle ++ q := by
  induction hay with
  | nil =>
    constructor
    · intro h
      have hn : needle = [] := by
        simpa [pyInChars, List.isEmpty_iff] using h
      exact ⟨[], [], by simp [hn]⟩
    · rintro ⟨p, q, h⟩
      have h2 := h.symm
      rw [List.append_assoc, List.append_eq_nil] at h2
      rw [List.append_eq_nil] at h2
      simp [pyInChars, List.isEmpty_iff, h2.2.1]
  | cons c t ih =>
    rw [pyInChars, Bool.or_eq_true, ih, List.isPrefixOf_iff_prefix]
    constructor
    · rintro (⟨q, hq⟩ | ⟨p, q, hpq⟩)
      · exact ⟨[], q, by simp [hq]⟩
      · exact ⟨c :: p, q, by simp [hpq]⟩
    · rintro ⟨p, q, hpq⟩
      cases p with
      | nil =>
        left
        exact ⟨q, by simpa using hpq.symm⟩
      | cons x p2 =>
        right
        injection hpq with h1 h2
        exact ⟨p2, q, h2⟩

theorem isCompanyAffiliation_iff (s : String) :
    isCompanyAffiliation s = true ↔
      ∃ k ∈ COMPANY_KEYWORDS, ∃ p q : String, s = p ++ k ++ q := by
  rw [isCompanyAffiliation, List.any_eq_true]
  constructor
  · rintro ⟨k, hk, hin⟩
    obtain ⟨p, q, hpq⟩ := (pyInChars_iff k.data s.data).mp hin
    refine ⟨k, hk, ⟨p⟩, ⟨q⟩, String.ext ?_⟩
    simpa [String.data_append] using hpq
  · rintro ⟨k, hk, p, q, rfl⟩
    refine ⟨k, hk, (pyInChars_iff k.data _).mpr ⟨p.data, q.data, ?_⟩⟩
    simp [String.data_append]

/-! ### Author loop invariants -/

theorem processAuthor_cases (acc : List String × List String) (author : Element) :
    (author.findDescendant "Affiliation" = none ∧
      processAuthor acc author = Except.ok acc) ∨
    (∃ aff, author.findDescendant "Affiliation" = some aff ∧ aff.text = none ∧
      processAuthor acc author =
        Except.error "TypeError: argument of type NoneType is not iterable") ∨
    (∃ aff t, author.findDescendant "Affiliation" = some aff ∧ aff.text = some t ∧
      isCompanyAffiliation t = false ∧ processAuthor acc author = Except.ok acc) ∨
    (∃ aff t, author.findDescendant "Affiliation" = some aff ∧ aff.text = some t ∧
      isCompanyAffiliation t = true ∧
      processAuthor acc author =
        Except.ok (acc.1 ++ [authorDisplayName author], acc.2 ++ [t])) := by
  cases hfd : author.findDescendant "Affiliation" with
  | none =>
    left
    exact ⟨rfl, by simp [processAuthor, hfd]⟩
  | some aff =>
    cases htx : aff.text with
    | none =>
      right; left
      exact ⟨aff, rfl, htx, by simp [processAuthor, hfd, htx]⟩
    | some t =>
      cases hc : isCompanyAffiliation t with
      | false =>
        right; right; left
        exact ⟨aff, t, rfl, htx, hc, by simp [processAuthor, hfd, htx, hc]⟩
      | true =>
        right; right; right
        exact ⟨aff, t, rfl, htx, hc, by simp [processAuthor, hfd, htx, hc]⟩

theorem processAuthors_ok (as : List Element) :
    ∀ acc res : List String × List String,
      processAuthors acc as = Except.ok res →
      ∃ sub : List Element, sub.Sublist as ∧
        res.1 = acc.1 ++ sub.map authorDisplayName ∧
        res.2 = acc.2 ++ sub.map affText ∧
        ∀ a ∈ sub, authorAffiliationText a = some (affText a) ∧
          isCompanyAffiliation (affText a) = true := by
  induction as with
  | nil =>
    intro acc res h
    rw [processAuthors] at h
    injection h with h
    exact ⟨[], List.nil_sublist _, by simp [h], by simp [h], by simp⟩
  | cons a as ih =>
    intro acc res h
    rw [processAuthors] at h
    rcases processAuthor_cases acc a with
        ⟨_, hpa⟩ | ⟨aff, _, _, hpa⟩ | ⟨aff, t, _, _, _, hpa⟩ |
        ⟨aff, t, hfd, htx, hc, hpa⟩
    · rw [hpa] at h
      obtain ⟨sub, hsub, h1, h2, h3⟩ := ih acc res h
      exact ⟨sub, hsub.cons a, h1, h2, h3⟩
    · rw [hpa] at h
      cases h
    · rw [hpa] at h
      obtain ⟨sub, hsub, h1, h2, h3⟩ := ih acc res h
      exact ⟨sub, hsub.cons a, h1, h2, h3⟩
    · rw [hpa] at h
      obtain ⟨sub, hsub, h1, h2, h3⟩ := ih _ res h
      have haff : authorAffiliationText a = some t := by
        simp [authorAffiliationText, hfd, htx]
      have hafft : affText a = t := by
        rw [affText, haff]
        rfl
      refine ⟨a :: sub, hsub.cons₂ a, ?_, ?_, ?_⟩
      · simpa [List.append_assoc] using h1
      · simpa [hafft, List.append_assoc] using h2
      · intro b hb
        rcases List.mem_cons.mp hb with rfl | hb2
        · exact ⟨by rw [haff, hafft], by rw [hafft]; exact hc⟩
        · exact h3 b hb2

/-! ### Record construction lemmas -/

theorem extract_ok (article : Element) (ns affs : List String) (em : Option String)
    (h : extract_authors_and_affiliations article = Except.ok (ns, affs, em)) :
    processAuthors ([], []) (article.findallDescendants "Author") =
      Except.ok (ns, affs) ∧
    em = firstEmail (serializeElem article) := by
  rw [extract_authors_and_affiliations] at h
  cases hp : processAuthors ([], []) (article.findallDescendants "Author") with
  | error e =>
    rw [hp] at h
    cases h
  | ok acc =>
    obtain ⟨ns0, affs0⟩ := acc
    rw [hp] at h
    injection h with h
    simp only [Prod.mk.injEq] at h
    obtain ⟨h1, h2, h3⟩ := h
    subst h1
    subst h2
    exact ⟨rfl, h3.symm⟩

theorem buildPaper_ok_fields (article : Element) (p : Paper)
    (h : buildPaper article = Except.ok p) :
    ∃ ns affs,
      extract_authors_and_affiliations article =
        Except.ok (ns, affs, firstEmail (serializeElem article)) ∧
      p.nonAcademicAuthors =
        (if ns.isEmpty then "N/A" else String.intercalate ", " ns) ∧
      p.companyAffiliations =
        (if affs.isEmpty then "N/A" else String.intercalate ", " affs) ∧
      p.correspondingEmail =
        pyOrElse (firstEmail (serializeElem article)) "N/A" := by
  rw [buildPaper] at h
  cases hpm : article.findDescendant "PMID" with
  | none =>
    rw [hpm] at h
    cases h
  | some pmid_elem =>
    rw [hpm] at h
    cases hx : extract_authors_and_affiliations article with
    | error e =>
      rw [hx] at h
      cases h
    | ok triple =>
      obtain ⟨ns, affs, em⟩ := triple
      obtain ⟨-, hem⟩ := extract_ok article ns affs em hx
      rw [hx] at h
      injection h with h
      subst hem
      refine ⟨ns, affs, rfl, ?_, ?_, ?_⟩ <;> rw [← h]

theorem buildPapers_error_of_mem (as : List Element) (a : Element) (e : String)
    (ha : a ∈ as) (he : buildPaper a = Except.error e) :
    ∃ e2, buildPapers as = Except.error e2 := by
  induction as with
  | nil => cases ha
  | cons b bs ih =>
    rw [buildPapers]
    rcases List.mem_cons.mp ha with rfl | hmem
    · rw [he]
      exact ⟨e, rfl⟩
    · cases hb : buildPaper b with
      | error e3 => exact ⟨e3, rfl⟩
      | ok p =>
        obtain ⟨e2, he2⟩ := ih hmem
        rw [he2]
        exact ⟨e2, rfl⟩

/-! ### Claim theorems -/

/-- C1: the Classifier marks an affiliation string as company exactly when
it contains, as a case-sensitive substring, one of the fixed keywords; an
author whose affiliation text matches no keyword contributes an entry to
neither output list, and every emitted affiliation matched a keyword. -/
theorem company_keyword_classification :
    (∀ s : String, isCompanyAffiliation s = true ↔
      ∃ k ∈ COMPANY_KEYWORDS, ∃ p q : String, s = p ++ k ++ q) ∧
    (∀ (acc : List String × List String) (author aff : Element) (t : String),
      author.findDescendant "Affiliation" = some aff → aff.text = some t →
      isCompanyAffiliation t = false → processAuthor acc author = Except.ok acc) ∧
    (∀ (article : Element) (ns affs : List String) (em : Option String),
      extract_authors_and_affiliations article = Except.ok (ns, affs, em) →
      ∀ t ∈ affs, isCompanyAffiliation t = true) := by
  refine ⟨isCompanyAffiliation_iff, ?_, ?_⟩
  · intro acc author aff t hfd htx hc
    simp [processAuthor, hfd, htx, hc]
  · intro article ns affs em h t ht
    obtain ⟨hp, -⟩ := extract_ok article ns affs em h
    obtain ⟨sub, -, -, h2, h3⟩ := processAuthors_ok _ _ _ hp
    simp only [List.nil_append] at h2
    rw [h2] at ht
    obtain ⟨a, ha, rfl⟩ := List.mem_map.mp ht
    exact (h3 a ha).2

/-- Witness for C1: a keyword-bearing string is classified company, the
academic author is dropped from both lists, and the emitted affiliation of
the example article matched the classifier. -/
theorem company_keyword_classification_witness :
    isCompanyAffiliation "Acme Pharma Inc." = true ∧
    processAuthor (["a"], ["b"]) exAuthorAcad = Except.ok (["a"], ["b"]) ∧
    isCompanyAffiliation "Acme Pharma Inc. jdoe@acme.com" = true := by
  refine ⟨?_, ?_, ?_⟩
  · exact (company_keyword_classification.1 _).mpr
      ⟨"Pharma", by decide, "Acme ", " Inc.", rfl⟩
  · exact company_keyword_classification.2.1 (["a"], ["b"]) exAuthorAcad
      (Element.mk "Affiliation" (some "State University") [])
      "State University" rfl rfl (by decide)
  · exact company_keyword_classification.2.2 exArticle
      ["John Doe"] ["Acme Pharma Inc. jdoe@acme.com"] (some "jdoe@acme.com")
      rfl "Acme Pharma Inc. jdoe@acme.com" (List.mem_singleton.mpr rfl)

/-- C2 counterexample: an author node whose Affiliation element is present
but carries no text (the parse of an empty Affiliation tag) has absent
affiliation text, yet the extractor raises a TypeError instead of
skipping the author. -/
theorem affiliation_without_text_raises :
    authorAffiliationText exAuthorNoTextAffil = none ∧
    extract_authors_and_affiliations exArticleNoTextAffil =
      Except.error "TypeError: argument of type NoneType is not iterable" :=
  ⟨rfl, rfl⟩

/-- C2 (amended): an author with no Affiliation element, or one whose
affiliation text is the empty string, is skipped: nothing is appended to
either list and no error is raised; but an Affiliation element present
with absent text raises a TypeError. -/
theorem author_skipped_when_affiliation_missing_or_empty
    (acc : List String × List String) (author : Element) :
    (author.findDescendant "Affiliation" = none →
      processAuthor acc author = Except.ok acc) ∧
    (∀ aff, author.findDescendant "Affiliation" = some aff → aff.text = some "" →
      processAuthor acc author = Except.ok acc) ∧
    (∀ aff, author.findDescendant "Affiliation" = some aff → aff.text = none →
      processAuthor acc author =
        Except.error "TypeError: argument of type NoneType is not iterable") := by
  refine ⟨?_, ?_, ?_⟩
  · intro hfd
    simp [processAuthor, hfd]
  · intro aff hfd htx
    have hc : isCompanyAffiliation "" = false := by decide
    simp [processAuthor, hfd, htx, hc]
  · intro aff hfd htx
    simp [processAuthor, hfd, htx]

/-- Witness for the amended C2 at concrete author nodes. -/
theorem author_skipped_witness :
    processAuthor ([], []) exAuthorNoAffil = Except.ok ([], []) ∧
    processAuthor ([], []) exAuthorEmptyStringAffil = Except.ok ([], []) ∧
    processAuthor ([], []) exAuthorNoTextAffil =
      Except.error "TypeError: argument of type NoneType is not iterable" :=
  ⟨(author_skipped_when_affiliation_missing_or_empty ([], []) exAuthorNoAffil).1 rfl,
   (author_skipped_when_affiliation_missing_or_empty ([], []) exAuthorEmptyStringAffil).2.1
     (Element.mk "Affiliation" (some "") []) rfl rfl,
   (author_skipped_when_affiliation_missing_or_empty ([], []) exAuthorNoTextAffil).2.2
     (Element.mk "Affiliation" none []) rfl rfl⟩

/-- C3: a successful search with an empty identifier list short-circuits
the pipeline: only the search request is issued, the result is the empty
list (normal termination, not an error), and no output file is created. -/
theorem empty_idlist_short_circuits (env : Env)
    (hs : raisesForStatus env.searchStatus = false)
    (hid : env.searchIdlist = []) :
    fetch_papers_from_pubmed env = (Except.ok [], [Req.esearch]) ∧
    (∀ args : Args, mainRun env args = Except.ok OutputAction.printedNoResults ∧
      writesFile (mainRun env args) = false) := by
  have hf : fetch_papers_from_pubmed env = (Except.ok [], [Req.esearch]) := by
    simp [fetch_papers_from_pubmed, hs, hid]
  refine ⟨hf, fun args => ?_⟩
  constructor <;> simp [mainRun, hf, writesFile]

/-- Witness for C3 at a concrete environment and command line. -/
theorem empty_idlist_short_circuits_witness :
    fetch_papers_from_pubmed envEmptyId = (Except.ok [], [Req.esearch]) ∧
    mainRun envEmptyId argsFile = Except.ok OutputAction.printedNoResults ∧
    writesFile (mainRun envEmptyId argsFile) = false := by
  obtain ⟨h1, h2⟩ := empty_idlist_short_circuits envEmptyId rfl rfl
  exact ⟨h1, (h2 argsFile).1, (h2 argsFile).2⟩

/-- C4 counterexample: a final status of 300 is not a 2xx status, yet the
pipeline does not abort with an error: it proceeds to the second request
and returns a normal (empty) result. -/
theorem non_2xx_status_not_aborted :
    ¬ (200 ≤ envRedirect.searchStatus ∧ envRedirect.searchStatus < 300) ∧
    fetch_papers_from_pubmed envRedirect =
      (Except.ok [], [Req.esearch, Req.efetch]) :=
  ⟨by decide, rfl⟩

/-- C4 (amended): a 4xx or 5xx status on either request aborts the
pipeline immediately with an error: each request is issued at most once
(no retry), no result is returned and no file is written; a 4xx or 5xx on
the search request means the fetch request is never issued. -/
theorem http_error_status_aborts (env : Env) :
    (raisesForStatus env.searchStatus = true →
      fetch_papers_from_pubmed env = (Except.error "HTTPError", [Req.esearch]) ∧
      ∀ args : Args, mainRun env args = Except.error "HTTPError" ∧
        writesFile (mainRun env args) = false) ∧
    (raisesForStatus env.searchStatus = false →
      env.searchIdlist.isEmpty = false →
      raisesForStatus env.fetchStatus = true →
      fetch_papers_from_pubmed env =
        (Except.error "HTTPError", [Req.esearch, Req.efetch]) ∧
      ∀ args : Args, mainRun env args = Except.error "HTTPError" ∧
        writesFile (mainRun env args) = false) := by
  constructor
  · intro hs
    have hf : fetch_papers_from_pubmed env =
        (Except.error "HTTPError", [Req.esearch]) := by
      simp [fetch_papers_from_pubmed, hs]
    exact ⟨hf, fun args =>
      ⟨by simp [mainRun, hf], by simp [mainRun, hf, writesFile]⟩⟩
  · intro hs hid hfs
    have hf : fetch_papers_from_pubmed env =
        (Except.error "HTTPError", [Req.esearch, Req.efetch]) := by
      simp [fetch_papers_from_pubmed, hs, hid, hfs]
    exact ⟨hf, fun args =>
      ⟨by simp [mainRun, hf], by simp [mainRun, hf, writesFile]⟩⟩

/-- Witness for the amended C4: HTTP 500 on the search request aborts
before the fetch request; HTTP 500 on the fetch request also aborts; no
file is written in either case. -/
theorem http_error_status_aborts_witness :
    fetch_papers_from_pubmed envSearch500 =
      (Except.error "HTTPError", [Req.esearch]) ∧
    mainRun envSearch500 argsFile = Except.error "HTTPError" ∧
    writesFile (mainRun envSearch500 argsFile) = false ∧
    fetch_papers_from_pubmed envFetch500 =
      (Except.error "HTTPError", [Req.esearch, Req.efetch]) ∧
    writesFile (mainRun envFetch500 argsFile) = false := by
  obtain ⟨h1, h2⟩ := (http_error_status_aborts envSearch500).1 rfl
  obtain ⟨h3, h4⟩ := (http_error_status_aborts envFetch500).2 rfl rfl rfl
  exact ⟨h1, (h2 argsFile).1, (h2 argsFile).2, h3, (h4 argsFile).2⟩

/-- C6: an author node missing the LastName or the ForeName element gets
display name Unknown; when both elements are present and carry text, the
display name is the given name, a space, and the family name. -/
theorem display_name_rule (author : Element) :
    ((author.findChild "LastName" = none ∨ author.findChild "ForeName" = none) →
      authorDisplayName author = "Unknown") ∧
    (∀ ln fn f g, author.findChild "LastName" = some ln →
      author.findChild "ForeName" = some fn →
      ln.text = some f → fn.text = some g →
      authorDisplayName author = g ++ " " ++ f) := by
  constructor
  · intro h
    rcases h with h | h
    · rw [authorDisplayName, h]
    · cases hl : author.findChild "LastName" <;> simp [authorDisplayName, hl, h]
  · intro ln fn f g hln hfn htf htg
    simp [authorDisplayName, hln, hfn, htf, htg, pyStrOpt]

/-- Witness for C6 at concrete author nodes. -/
theorem display_name_rule_witness :
    authorDisplayName exAuthorMissingFore = "Unknown" ∧
    authorDisplayName exAuthorCo = "John Doe" := by
  constructor
  · exact (display_name_rule exAuthorMissingFore).1 (Or.inr rfl)
  · exact (display_name_rule exAuthorCo).2
      (Element.mk "LastName" (some "Doe") [])
      (Element.mk "ForeName" (some "John") []) "Doe" "John" rfl rfl rfl rfl

/-- C7: the two lists of an extracted record are parallel: same length,
and they are the display names and the affiliation texts of one
subsequence of the author nodes taken in document order. -/
theorem parallel_author_affiliation_lists (article : Element)
    (ns affs : List String) (em : Option String)
    (h : extract_authors_and_affiliations article = Except.ok (ns, affs, em)) :
    ns.length = affs.length ∧
    ∃ sub : List Element, sub.Sublist (article.findallDescendants "Author") ∧
      ns = sub.map authorDisplayName ∧
      affs = sub.map affText ∧
      ∀ a ∈ sub, authorAffiliationText a = some (affText a) := by
  obtain ⟨hp, -⟩ := extract_ok article ns affs em h
  obtain ⟨sub, hsub, h1, h2, h3⟩ := processAuthors_ok _ _ _ hp
  simp only [List.nil_append] at h1 h2
  refine ⟨?_, sub, hsub, h1, h2, fun a ha => (h3 a ha).1⟩
  rw [h1, h2, List.length_map, List.length_map]

/-- Witness for C7 at the example article. -/
theorem parallel_author_affiliation_lists_witness :
    (["John Doe"] : List String).length =
      (["Acme Pharma Inc. jdoe@acme.com"] : List String).length :=
  (parallel_author_affiliation_lists exArticle ["John Doe"]
    ["Acme Pharma Inc. jdoe@acme.com"] (some "jdoe@acme.com") rfl).1

/-- C9: an article record with no PMID descendant raises an
AttributeError while building the record, and the error aborts the whole
batch: the pipeline returns that error and the entry point propagates it;
the record is not silently skipped. -/
theorem missing_pmid_aborts_batch (env : Env) (root article : Element)
    (h1 : raisesForStatus env.searchStatus = false)
    (h2 : env.searchIdlist.isEmpty = false)
    (h3 : raisesForStatus env.fetchStatus = false)
    (h4 : env.fetchXml = some root)
    (h5 : article ∈ root.findallDescendants "PubmedArticle")
    (h6 : article.findDescendant "PMID" = none) :
    buildPaper article =
      Except.error "AttributeError: NoneType object has no attribute text" ∧
    ∃ e, (fetch_papers_from_pubmed env).1 = Except.error e ∧
      ∀ args : Args, mainRun env args = Except.error e := by
  have hb : buildPaper article =
      Except.error "AttributeError: NoneType object has no attribute text" := by
    rw [buildPaper, h6]
  obtain ⟨e2, he2⟩ := buildPapers_error_of_mem _ _ _ h5 hb
  have hf : (fetch_papers_from_pubmed env).1 = Except.error e2 := by
    simp [fetch_papers_from_pubmed, h1, h2, h3, h4, he2]
  exact ⟨hb, e2, hf, fun args => by simp [mainRun, hf]⟩

/-- Witness for C9 at a concrete environment whose only article has no
PMID. -/
theorem missing_pmid_aborts_batch_witness :
    buildPaper exArticleNoPmid =
      Except.error "AttributeError: NoneType object has no attribute text" ∧
    mainRun envNoPmid argsConsole =
      Except.error "AttributeError: NoneType object has no attribute text" := by
  obtain ⟨hb, e, he, hm⟩ := missing_pmid_aborts_batch envNoPmid exRootNoPmid
    exArticleNoPmid rfl rfl rfl rfl (List.mem_singleton.mpr rfl) rfl
  refine ⟨hb, ?_⟩
  have he2 : (fetch_papers_from_pubmed envNoPmid).1 =
      Except.error "AttributeError: NoneType object has no attribute text" := by rfl
  rw [he] at he2
  injection he2 with h3
  rw [hm argsConsole, h3]

/-- Helper: a string beginning with the word None and a space is not the
placeholder. -/
theorem none_space_ne_unknown (x : String) : ("None" ++ " " ++ x) ≠ "Unknown" := by
  intro h
  have hd := congrArg String.data h
  rw [String.data_append, String.data_append] at hd
  have h1 : ("None" : String).data = ['N', 'o', 'n', 'e'] := rfl
  have h2 : (" " : String).data = [' '] := rfl
  rw [h1, h2] at hd
  have h3 : some 'N' = some 'U' := congrArg List.head? hd
  exact absurd h3 (by decide)

/-- Helper: a string ending in a space and the word None is not the
placeholder (the placeholder contains no space). -/
theorem space_none_ne_unknown (x : String) : (x ++ " " ++ "None") ≠ "Unknown" := by
  intro h
  have hd := congrArg String.data h
  rw [String.data_append, String.data_append] at hd
  have hmem : ' ' ∈ (x.data ++ (" " : String).data) ++ ("None" : String).data :=
    List.mem_append_left _ (List.mem_append_right _ (List.mem_singleton.mpr rfl))
  rw [hd] at hmem
  exact absurd hmem (by decide)

/-- C10: an author node with both name elements present but at least one
carrying no text gets the interpolated name containing the word None, not
the placeholder Unknown. -/
theorem display_name_interpolates_none (author ln fn : Element)
    (hln : author.findChild "LastName" = some ln)
    (hfn : author.findChild "ForeName" = some fn)
    (h : fn.text = none ∨ ln.text = none) :
    authorDisplayName author = pyStrOpt fn.text ++ " " ++ pyStrOpt ln.text ∧
    pyStrOpt (none : Option String) = "None" ∧
    authorDisplayName author ≠ "Unknown" := by
  have hname : authorDisplayName author =
      pyStrOpt fn.text ++ " " ++ pyStrOpt ln.text := by
    simp [authorDisplayName, hln, hfn]
  refine ⟨hname, rfl, ?_⟩
  rw [hname]
  rcases h with h | h
  · rw [h]
    exact none_space_ne_unknown _
  · rw [h]
    exact space_none_ne_unknown _

/-- Witness for C10 at a concrete author node with an empty LastName
element. -/
theorem display_name_interpolates_none_witness :
    authorDisplayName exAuthorNoneText = "Ann None" ∧
    authorDisplayName exAuthorNoneText ≠ "Unknown" := by
  obtain ⟨h1, -, h3⟩ := display_name_interpolates_none exAuthorNoneText
    (Element.mk "LastName" none []) (Element.mk "ForeName" (some "Ann") [])
    rfl rfl (Or.inr rfl)
  exact ⟨h1, h3⟩

/-- C8: the CSV serialization always has the five fixed column names as
its header, one row per record below it, every row five cells wide; the
two list-valued fields of a record are comma-space joins of the extracted
lists with the empty list rendered as the placeholder, and a record with
no e-mail match renders the placeholder in the e-mail column. -/
theorem csv_five_columns (data : List Paper) :
    (save_to_csv data).head? = some ["PubmedID", "Title",
      "Non-academic Authors", "Company Affiliations",
      "Corresponding Author Email"] ∧
    (save_to_csv data).length = data.length + 1 ∧
    (∀ row ∈ save_to_csv data, row.length = 5) ∧
    (∀ article p, buildPaper article = Except.ok p →
      ∃ ns affs, extract_authors_and_affiliations article =
          Except.ok (ns, affs, firstEmail (serializeElem article)) ∧
        p.nonAcademicAuthors =
          (if ns.isEmpty then "N/A" else String.intercalate ", " ns) ∧
        p.companyAffiliations =
          (if affs.isEmpty then "N/A" else String.intercalate ", " affs) ∧
        (firstEmail (serializeElem article) = none →
          p.correspondingEmail = "N/A")) := by
  refine ⟨rfl, by simp [save_to_csv], ?_, ?_⟩
  · intro row hrow
    rcases List.mem_cons.mp hrow with rfl | hmem
    · rfl
    · obtain ⟨p, -, rfl⟩ := List.mem_map.mp hmem
      rfl
  · intro article p h
    obtain ⟨ns, affs, hx, hna, hca, hem⟩ := buildPaper_ok_fields article p h
    refine ⟨ns, affs, hx, hna, hca, fun hnone => ?_⟩
    rw [hem, hnone]
    rfl

/-- Witness for C8 at a one-record result set built from the example
article. -/
theorem csv_five_columns_witness :
    (save_to_csv [examplePaper]).head? = some ["PubmedID", "Title",
      "Non-academic Authors", "Company Affiliations",
      "Corresponding Author Email"] ∧
    (save_to_csv [examplePaper]).length = 2 ∧
    (paperRow examplePaper).length = 5 ∧
    examplePaper.nonAcademicAuthors = "John Doe" := by
  obtain ⟨h1, h2, h3, h4⟩ := csv_five_columns [examplePaper]
  refine ⟨h1, h2, h3 _ (by simp [save_to_csv]), ?_⟩
  obtain ⟨ns, affs, hx, hna, -, -⟩ := h4 exArticle examplePaper rfl
  have hx2 : extract_authors_and_affiliations exArticle =
      Except.ok (["John Doe"], ["Acme Pharma Inc. jdoe@acme.com"],
        some "jdoe@acme.com") := rfl
  rw [hx] at hx2
  injection hx2 with hx3
  simp only [Prod.mk.injEq] at hx3
  rw [hna, hx3.1]
  rfl

/-! ### E-mail search lemmas -/

theorem domSearch_some (d : List Char) (n : Nat) (dm : List Char)
    (h : domSearch d n = some dm) :
    ∃ j, 1 ≤ j ∧ tryDomAt d j = some dm := by
  induction n with
  | zero =>
    rw [domSearch] at h
    cases h
  | succ j ih =>
    rw [domSearch] at h
    cases htry : tryDomAt d (j + 1) with
    | some r =>
      rw [htry] at h
      injection h with h
      exact ⟨j + 1, by omega, by rw [htry, h]⟩
    | none =>
      rw [htry] at h
      exact ih h

theorem tryDomAt_some (d dm : List Char) (j : Nat)
    (hj : 1 ≤ j) (h : tryDomAt d j = some dm) :
    (dm <+: d) ∧
    ∃ d1 d2, dm = d1 ++ '.' :: d2 ∧ d1 ≠ [] ∧ (∀ c ∈ d1, c ∈ d) ∧
      2 ≤ d2.length ∧ (∀ c ∈ d2, c.isAlpha = true) := by
  rw [tryDomAt] at h
  by_cases hget : d[j]? = some '.'
  case neg =>
    rw [if_neg hget] at h
    cases h
  case pos =>
    rw [if_pos hget] at h
    by_cases hlen : 2 ≤ ((d.drop (j + 1)).takeWhile Char.isAlpha).length
    case neg =>
      rw [if_neg hlen] at h
      cases h
    case pos =>
      rw [if_pos hlen] at h
      injection h with h
      subst h
      have hjlt : j < d.length := (List.getElem?_eq_some.mp hget).1
      have hdj : d[j] = '.' := (List.getElem?_eq_some.mp hget).2
      constructor
      · refine ⟨(d.drop (j + 1)).dropWhile Char.isAlpha, ?_⟩
        rw [List.append_assoc, List.cons_append,
          List.takeWhile_append_dropWhile, ← hdj,
          ← List.drop_eq_getElem_cons hjlt, List.take_append_drop]
      · refine ⟨d.take j, (d.drop (j + 1)).takeWhile Char.isAlpha, rfl, ?_,
          fun c hc => List.take_subset j d hc, hlen,
          fun c hc => List.mem_takeWhile_imp hc⟩
        apply List.ne_nil_of_length_pos
        rw [List.length_take]
        omega

theorem matchAt_some (cs m : List Char) (h : matchAt cs = some m) :
    (m <+: cs) ∧ emailShaped m := by
  simp only [matchAt] at h
  split at h
  · cases h
  · rename_i hl
    split at h
    · cases h
    · rename_i c rest hdw
      split at h
      case isFalse => cases h
      case isTrue hc =>
        subst hc
        cases hds : domSearch (rest.takeWhile isDomainChar)
            (rest.takeWhile isDomainChar).length with
        | none =>
          rw [hds] at h
          cases h
        | some dm =>
          rw [hds] at h
          simp only [Option.map_some'] at h
          injection h with h
          obtain ⟨j, hj, htry⟩ := domSearch_some _ _ _ hds
          obtain ⟨⟨t1, hpre⟩, d1, d2, hdm, hd1ne, hd1mem, hd2len, hd2alpha⟩ :=
            tryDomAt_some _ _ _ hj htry
          have hlne : cs.takeWhile isLocalChar ≠ [] := by
            intro hnil
            rw [← List.isEmpty_iff] at hnil
            exact hl hnil
          obtain ⟨t2, ht2⟩ := List.takeWhile_prefix isDomainChar (l := rest)
          constructor
          · refine ⟨t1 ++ t2, ?_⟩
            have hcs : cs = List.takeWhile isLocalChar cs ++ '@' :: rest := by
              conv_lhs => rw [← List.takeWhile_append_dropWhile isLocalChar cs]
              rw [hdw]
            calc m ++ (t1 ++ t2)
                = (List.takeWhile isLocalChar cs ++ '@' :: dm) ++ (t1 ++ t2) := by
                  rw [h]
              _ = List.takeWhile isLocalChar cs ++ '@' :: ((dm ++ t1) ++ t2) := by
                  simp [List.append_assoc]
              _ = List.takeWhile isLocalChar cs ++ '@' :: rest := by
                  rw [hpre, ht2]
              _ = cs := hcs.symm
          · refine ⟨cs.takeWhile isLocalChar, d1, d2, ?_, hlne,
              fun c hc => List.mem_takeWhile_imp hc, hd1ne, ?_, hd2len, hd2alpha⟩
            · rw [← h, hdm]
            · intro c hc
              exact List.mem_takeWhile_imp (hd1mem c hc)

theorem searchEmail_some (cs m : List Char) (h : searchEmail cs = some m) :
    ∃ pre post, cs = pre ++ m ++ post ∧
      matchAt (m ++ post) = some m ∧
      (∀ p2 s2, cs = p2 ++ s2 → p2.length < pre.length → matchAt s2 = none) ∧
      emailShaped m := by
  induction cs with
  | nil =>
    rw [searchEmail] at h
    cases h
  | cons c cs ih =>
    rw [searchEmail] at h
    cases hm : matchAt (c :: cs) with
    | some m0 =>
      rw [hm] at h
      injection h with h
      subst h
      obtain ⟨⟨post, hpost⟩, hshape⟩ := matchAt_some _ _ hm
      refine ⟨[], post, by simp [hpost], ?_, ?_, hshape⟩
      · rw [hpost]
        exact hm
      · intro p2 s2 heq hlen
        simp at hlen
    | none =>
      rw [hm] at h
      obtain ⟨pre, post, hsplit, hmatch, hmin, hshape⟩ := ih h
      refine ⟨c :: pre, post, by simp [hsplit], hmatch, ?_, hshape⟩
      intro p2 s2 heq hlen
      cases p2 with
      | nil =>
        simp only [List.nil_append] at heq
        rw [← heq]
        exact hm
      | cons x p2 =>
        rw [List.cons_append] at heq
        injection heq with h1 h2
        refine hmin p2 s2 h2 ?_
        simp only [List.length_cons] at hlen
        omega

/-- C5: the e-mail field of a built record is the first (leftmost) match
of the e-mail pattern anywhere in the serialized text of the whole
article record (not scoped to any author field): the match is
e-mail-shaped, occurs in the serialized text, and no match attempt
succeeds at any earlier position; with no match the field is the
placeholder. -/
theorem email_first_match_of_serialized (article : Element) (p : Paper)
    (h : buildPaper article = Except.ok p) :
    (firstEmail (serializeElem article) = none → p.correspondingEmail = "N/A") ∧
    (∀ e : String, firstEmail (serializeElem article) = some e →
      p.correspondingEmail = e ∧ emailShaped e.data ∧
      ∃ pre post : List Char,
        (serializeElem article).data = pre ++ e.data ++ post ∧
        matchAt (e.data ++ post) = some e.data ∧
        ∀ p2 s2 : List Char, (serializeElem article).data = p2 ++ s2 →
          p2.length < pre.length → matchAt s2 = none) := by
  obtain ⟨ns, affs, hx, -, -, hem⟩ := buildPaper_ok_fields article p h
  constructor
  · intro hnone
    rw [hem, hnone]
    rfl
  · intro e hsome
    rw [firstEmail] at hsome
    cases hse : searchEmail (serializeElem article).data with
    | none =>
      rw [hse] at hsome
      cases hsome
    | some m =>
      rw [hse] at hsome
      simp only [Option.map_some'] at hsome
      injection hsome with hsome
      subst hsome
      obtain ⟨pre, post, hsplit, hmatch, hmin, hshape⟩ := searchEmail_some _ _ hse
      have hmne : m ≠ [] := by
        obtain ⟨l, d1, d2, hm, hlne, -⟩ := hshape
        intro hnil
        rw [hnil] at hm
        exact absurd hm.symm (by simp)
      have hee : p.correspondingEmail = String.mk m := by
        rw [hem, firstEmail, hse]
        simp only [Option.map_some', pyOrElse]
        rw [if_neg fun hemp =>
          hmne (congrArg String.data ((String.isEmpty_iff _).mp hemp))]
      exact ⟨hee, hshape, pre, post, hsplit, hmatch, hmin⟩

/-- Witness for C5 at the example article, whose serialization contains
one e-mail address inside an affiliation text. -/
theorem email_first_match_witness :
    examplePaper.correspondingEmail = "jdoe@acme.com" ∧
    emailShaped ("jdoe@acme.com" : String).data := by
  obtain ⟨-, h2⟩ := email_first_match_of_serialized exArticle examplePaper rfl
  obtain ⟨he, hs, -⟩ := h2 "jdoe@acme.com" rfl
  exact ⟨he, hs⟩
